import Mathlib

/-!
Shallow embedding of the DeckStore and StudySession logic of the flashcard
application in src/App.js, together with proofs about its specification.

Modelling conventions:
* JS strings are Lean String; JS numbers occurring as card ids are Int
  (Date.now() values are integral).
* The persisted storage cell holds either nothing (key absent), an
  unparseable string (JSON.parse throws), or a parsed JSON value; a
  JSON.stringify followed by JSON.parse is the identity on such values, so
  saveData stores the JSON encoding directly.
* Alert dialogs are modelled by taking the confirming branch; a JS
  TypeError that is not surrounded by try/catch is modelled as an explicit
  error result (OpError.typeError) with the pre-call state kept.
* Date.now() and new Date().toISOString() are external inputs; the
  operations take the generated id and timestamp as arguments.
-/

namespace FlashcardApp

/-- JSON values as produced by JSON.parse. -/
inductive Json where
  | null : Json
  | bool (b : Bool) : Json
  | num (n : Int) : Json
  | str (s : String) : Json
  | arr (elems : List Json) : Json
  | obj (fields : List (String × Json)) : Json

/-- Content of the AsyncStorage cell under the key "decks". -/
inductive Stored where
  | absent : Stored
  | malformed : Stored
  | val (j : Json) : Stored

/-- A flashcard: id from Date.now(), trimmed question and answer, ISO timestamp. -/
structure Card where
  id : Int
  question : String
  answer : String
  createdAt : String
deriving DecidableEq, Repr

/-- A deck: string id, user-supplied name, owned cards. -/
structure Deck where
  id : String
  name : String
  cards : List Card
deriving DecidableEq, Repr

/-- Whitespace test matching the characters JS String.prototype.trim removes
on the inputs relevant to this app. -/
def isSpaceChar (c : Char) : Bool :=
  c = ' ' || c = '\t' || c = '\n' || c = '\r'

/-- Model of the JS string method trim(). -/
def jsTrim (s : String) : String :=
  String.mk (((s.data.dropWhile isSpaceChar).reverse.dropWhile isSpaceChar).reverse)

/-- Model of the JS string method toLowerCase() on the ASCII range. -/
def jsToLower (s : String) : String :=
  String.mk (s.data.map Char.toLower)

/-- JSON encoding of a card, field order as written in saveCard. -/
def encodeCard (c : Card) : Json :=
  Json.obj [("id", Json.num c.id), ("question", Json.str c.question),
            ("answer", Json.str c.answer), ("createdAt", Json.str c.createdAt)]

/-- JSON encoding of a deck, field order as written in createDeck. -/
def encodeDeck (d : Deck) : Json :=
  Json.obj [("id", Json.str d.id), ("name", Json.str d.name),
            ("cards", Json.arr (d.cards.map encodeCard))]

/-- Decoder inverse to encodeCard, used to state structural equality. -/
def decodeCard : Json → Option Card
  | Json.obj [("id", Json.num i), ("question", Json.str q),
              ("answer", Json.str a), ("createdAt", Json.str t)] =>
      some ⟨i, q, a, t⟩
  | _ => none

/-- Decoder for a list of cards, none as soon as one element fails. -/
def decodeCards : List Json → Option (List Card)
  | [] => some []
  | j :: rest =>
    match decodeCard j, decodeCards rest with
    | some c, some cs => some (c :: cs)
    | _, _ => none

/-- Decoder inverse to encodeDeck, used to state structural equality. -/
def decodeDeck : Json → Option Deck
  | Json.obj [("id", Json.str i), ("name", Json.str n), ("cards", Json.arr cs)] =>
      (decodeCards cs).map (fun cards => ⟨i, n, cards⟩)
  | _ => none

/-- Decoder for a list of decks, none as soon as one element fails. -/
def decodeDecks : List Json → Option (List Deck)
  | [] => some []
  | j :: rest =>
    match decodeDeck j, decodeDecks rest with
    | some d, some ds => some (d :: ds)
    | _, _ => none

/-- The single default deck created on first launch and after a reset. -/
def defaultDeck : Deck := ⟨"default", "My Cards", []⟩

/-- The default deck list. -/
def defaultDecks : List Deck := [defaultDeck]

/-- saveData(decksData): JSON.stringify the deck array and write it to the
storage cell. The Array.isArray validation always passes for a typed deck
list, and a later JSON.parse of the written string recovers exactly this
JSON value. -/
def saveData (decksData : List Deck) : Stored :=
  Stored.val (Json.arr (decksData.map encodeDeck))

/-- Error outcomes of the operations. validationError and invariantError are
user-facing alerts followed by an early return; typeError is an uncaught JS
TypeError. -/
inductive OpError where
  | validationError : OpError
  | invariantError : OpError
  | typeError : OpError
deriving DecidableEq, Repr

/-- In-memory component state: the flashcards projection, the deck list, the
active deck id, the storage mirror, and the study-mode fields. -/
structure AppState where
  flashcards : List Card
  decks : List Deck
  currentDeck : String
  storage : Stored
  studyMode : Bool
  currentCardIndex : Nat
  showAnswer : Bool

/-- Component state at first render, before any effect runs. -/
def initialState : AppState :=
  { flashcards := [], decks := defaultDecks, currentDeck := "default",
    storage := Stored.absent, studyMode := false, currentCardIndex := 0,
    showAnswer := false }

/-- createDeck: validate the trimmed name for non-emptiness and
case-insensitive uniqueness, then append a deck with empty cards and
persist. newId stands for Date.now().toString(). -/
def createDeck (st : AppState) (newDeckName : String) (newId : String) :
    Except OpError AppState :=
  if jsTrim newDeckName = "" then Except.error OpError.validationError
  else if st.decks.any (fun deck => jsToLower deck.name == jsToLower (jsTrim newDeckName)) then
    Except.error OpError.validationError
  else
    let newDeck : Deck := ⟨newId, jsTrim newDeckName, []⟩
    let updatedDecks := st.decks ++ [newDeck]
    Except.ok { st with decks := updatedDecks, storage := saveData updatedDecks }

/-- deleteDeck: refuse to delete the last deck; looking up a missing id
throws a TypeError while building the confirmation message; on the
confirmed branch remove the deck, persist, and if the active deck was
removed point currentDeck at the first remaining deck and expose its
cards. -/
def deleteDeck (st : AppState) (deckId : String) : Except OpError AppState :=
  if st.decks.length ≤ 1 then Except.error OpError.invariantError
  else
    match st.decks.find? (fun deck => deck.id == deckId) with
    | none => Except.error OpError.typeError
    | some _ =>
      if st.currentDeck = deckId then
        match st.decks.filter (fun deck => !(deck.id == deckId)) with
        | [] => Except.error OpError.typeError
        | d0 :: rest =>
          Except.ok { st with
            decks := d0 :: rest, storage := saveData (d0 :: rest),
            currentDeck := d0.id, flashcards := d0.cards }
      else
        Except.ok { st with
          decks := st.decks.filter (fun deck => !(deck.id == deckId)),
          storage := saveData (st.decks.filter (fun deck => !(deck.id == deckId))) }

/-- switchDeck: set currentDeck unconditionally, then expose the cards of the
matching deck when one exists. -/
def switchDeck (st : AppState) (deckId : String) : AppState :=
  let st1 := { st with currentDeck := deckId }
  match st.decks.find? (fun deck => deck.id == deckId) with
  | some selectedDeck => { st1 with flashcards := selectedDeck.cards }
  | none => st1

/-- saveCard: validate both trimmed fields, build the new card, append it to
the active deck inside the deck list, persist, and append it to the
flashcards projection. newId stands for Date.now() and now for
new Date().toISOString(). -/
def saveCard (st : AppState) (question answer : String) (newId : Int)
    (now : String) : Except OpError AppState :=
  if jsTrim question = "" || jsTrim answer = "" then
    Except.error OpError.validationError
  else
    let newCard : Card := ⟨newId, jsTrim question, jsTrim answer, now⟩
    let updatedDecks := st.decks.map (fun deck =>
      if deck.id == st.currentDeck then { deck with cards := deck.cards ++ [newCard] }
      else deck)
    Except.ok { st with
      decks := updatedDecks, storage := saveData updatedDecks,
      flashcards := st.flashcards ++ [newCard] }

/-- deleteCard (confirmed branch): filter the card out of the active deck in
the deck list, persist, and filter it out of the flashcards projection. -/
def deleteCard (st : AppState) (cardId : Int) : AppState :=
  let updatedDecks := st.decks.map (fun deck =>
    if deck.id == st.currentDeck then
      { deck with cards := deck.cards.filter (fun card => !(card.id == cardId)) }
    else deck)
  { st with
    decks := updatedDecks, storage := saveData updatedDecks,
    flashcards := st.flashcards.filter (fun card => !(card.id == cardId)) }

/-- studyCards: alert and change nothing on an empty card list, otherwise
enter study mode at index 0 with the question side showing. -/
def studyCards (st : AppState) : AppState :=
  if st.flashcards.length = 0 then st
  else { st with studyMode := true, currentCardIndex := 0, showAnswer := false }

/-- flipCard: toggle the revealed side. -/
def flipCard (st : AppState) : AppState :=
  { st with showAnswer := !st.showAnswer }

/-- nextCard: advance while strictly before the last card, otherwise leave
study mode. JS computes flashcards.length - 1 in Int, but for length 0 both
the JS comparison and the Nat-truncated one are false. -/
def nextCard (st : AppState) : AppState :=
  if st.currentCardIndex < st.flashcards.length - 1 then
    { st with currentCardIndex := st.currentCardIndex + 1, showAnswer := false }
  else
    { st with studyMode := false }

/-! ### Untyped model of loadData

loadData manipulates raw JSON.parse output, so it is modelled over raw JSON
values rather than the typed Deck list. RawState mirrors the component
state variables that loadData and resetToDefault touch. -/

/-- Raw (JSON-level) view of the state touched by loadData. -/
structure RawState where
  decks : List Json
  flashcards : List Json
  currentDeck : String
  storage : Stored

/-- JS property access v[k] on a parsed JSON value: throws a TypeError on
null, yields the field on an object, and yields undefined (none) on every
other value. -/
def jsGet (j : Json) (k : String) : Except Unit (Option Json) :=
  match j with
  | Json.null => Except.error ()
  | Json.obj fields => Except.ok ((fields.find? (fun p => p.1 == k)).map Prod.snd)
  | _ => Except.ok none

/-- decksData.find(deck => deck.id === currentDeck): first element whose id
property is exactly the string target; evaluating the predicate on a null
element throws. -/
def jsFindById (elems : List Json) (target : String) : Except Unit (Option Json) :=
  match elems with
  | [] => Except.ok none
  | e :: rest =>
    match jsGet e "id" with
    | Except.error u => Except.error u
    | Except.ok idField =>
      match idField with
      | some (Json.str s) => if s = target then Except.ok (some e) else jsFindById rest target
      | _ => jsFindById rest target

/-- JSON encoding of the default deck list. -/
def defaultDeckJson : Json := encodeDeck defaultDeck

/-- resetToDefault: install the default single-deck state and persist it. -/
def resetToDefault : RawState :=
  { decks := [defaultDeckJson], flashcards := [], currentDeck := "default",
    storage := saveData defaultDecks }

/-- Second half of the accepted branch of loadData: when the found element
carries an array cards property, expose those cards; a throw while reading
the property would be caught and lead to the reset. -/
def loadFlashcards (st1 : RawState) (currentDeckData : Json) : RawState :=
  match jsGet currentDeckData "cards" with
  | Except.ok (some (Json.arr cs)) => { st1 with flashcards := cs }
  | Except.ok _ => st1
  | Except.error _ => resetToDefault

/-- loadData: read the storage cell; do nothing when the key is absent; on a
parse failure or a present value that is not a non-empty array, reset to
the default state; on a non-empty array install it as the deck list and,
when an element with the current deck id is found and carries an array
cards property, expose those cards. Any exception thrown on the way is
caught and also leads to the reset (after the alert). -/
def loadData (st : RawState) : RawState :=
  match st.storage with
  | Stored.absent => st
  | Stored.malformed => resetToDefault
  | Stored.val j =>
    match j with
    | Json.arr elems =>
      if 0 < elems.length then
        match jsFindById elems st.currentDeck with
        | Except.error _ => resetToDefault
        | Except.ok found =>
          let st1 := { st with decks := elems }
          match found with
          | none => st1
          | some currentDeckData => loadFlashcards st1 currentDeckData
      else resetToDefault
    | _ => resetToDefault

/-! ### Invariants named by the specification -/

/-- The active deck id references a deck present in the deck list. -/
def activeOk (st : AppState) : Prop :=
  ∃ d ∈ st.decks, d.id = st.currentDeck

/-- The flashcards projection equals the cards of the first deck whose id is
the active deck id. -/
def flashSync (st : AppState) : Prop :=
  ∃ d, st.decks.find? (fun deck => deck.id == st.currentDeck) = some d ∧
    st.flashcards = d.cards

/-- The raw-state counterpart of flashSync, phrased with the JS property
accesses loadData itself performs. -/
def rawFlashSync (st : RawState) : Prop :=
  ∃ cd cs, jsFindById st.decks st.currentDeck = Except.ok (some cd) ∧
    jsGet cd "cards" = Except.ok (some (Json.arr cs)) ∧ st.flashcards = cs

/-! ### Operation sequences -/

/-- One user-triggered DeckStore or StudySession action, carrying the
external inputs (fresh ids, timestamps) the code reads from Date. -/
inductive Op where
  | create (name id : String) : Op
  | remove (id : String) : Op
  | switch (id : String) : Op
  | addCard (q a : String) (cid : Int) (ts : String) : Op
  | removeCard (cid : Int) : Op
  | study : Op
  | next : Op
  | flip : Op

/-- Apply one action; an alert or a thrown error leaves the state as it
was. -/
def applyOp (st : AppState) (op : Op) : AppState :=
  match op with
  | Op.create name id =>
    match createDeck st name id with
    | Except.ok s => s
    | Except.error _ => st
  | Op.remove id =>
    match deleteDeck st id with
    | Except.ok s => s
    | Except.error _ => st
  | Op.switch id => switchDeck st id
  | Op.addCard q a cid ts =>
    match saveCard st q a cid ts with
    | Except.ok s => s
    | Except.error _ => st
  | Op.removeCard cid => deleteCard st cid
  | Op.study => studyCards st
  | Op.next => nextCard st
  | Op.flip => flipCard st

/-- Run a whole sequence of actions. -/
def run (st : AppState) : List Op → AppState
  | [] => st
  | op :: rest => run (applyOp st op) rest

/-- The id generation scheme is collision free (spec section 3): every deck
id passed to createDeck is fresh for the state it is applied in. -/
def freshIds : AppState → List Op → Bool
  | _, [] => true
  | st, op :: rest =>
    (match op with
     | Op.create _ id => decide (id ∉ st.decks.map Deck.id)
     | _ => true) && freshIds (applyOp st op) rest

/-! ### General helper lemmas -/

lemma filter_self_filter {α : Type} (p : α → Bool) (l : List α) :
    (l.filter p).filter p = l.filter p := by
  rw [List.filter_eq_self]
  intro a ha
  exact List.of_mem_filter ha

lemma length_filter_add_length_filter_not {α : Type} (p : α → Bool) (l : List α) :
    (l.filter p).length + (l.filter (fun a => !(p a))).length = l.length := by
  induction l with
  | nil => rfl
  | cons x xs ih =>
    by_cases h : p x = true
    · simp only [List.filter_cons, h, if_true, Bool.not_true, Bool.false_eq_true,
        if_false, List.length_cons]
      omega
    · simp only [Bool.not_eq_true] at h
      simp only [List.filter_cons, h, Bool.false_eq_true, if_false, Bool.not_false,
        if_true, List.length_cons]
      omega

lemma length_le_one_of_nodup_all_eq {α : Type} {l : List α} {a : α}
    (hn : l.Nodup) (h : ∀ x ∈ l, x = a) : l.length ≤ 1 := by
  match l, hn with
  | [], _ => simp
  | [x], _ => simp
  | x :: y :: rest, hn =>
    exfalso
    have hx : x = a := h x (by simp)
    have hy : y = a := h y (by simp)
    have hne : x ≠ y := by
      have := List.nodup_cons.mp hn
      intro hxy
      exact this.1 (hxy ▸ List.mem_cons_self y rest)
    exact hne (hx.trans hy.symm)

lemma find?_filter_of_imp {α : Type} (p q : α → Bool) (l : List α)
    (h : ∀ x, p x = true → q x = true) : (l.filter q).find? p = l.find? p := by
  induction l with
  | nil => rfl
  | cons x xs ih =>
    by_cases hp : p x = true
    · rw [List.filter_cons, if_pos (h x hp), List.find?_cons_of_pos _ hp,
        List.find?_cons_of_pos _ hp]
    · by_cases hq : q x = true
      · rw [List.filter_cons, if_pos hq, List.find?_cons_of_neg _ hp,
          List.find?_cons_of_neg _ hp, ih]
      · rw [List.filter_cons, if_neg hq, List.find?_cons_of_neg _ hp, ih]

lemma find?_map_pred {α : Type} (g : α → α) (p : α → Bool) (l : List α)
    (h : ∀ x, p (g x) = p x) : (l.map g).find? p = (l.find? p).map g := by
  induction l with
  | nil => rfl
  | cons x xs ih =>
    by_cases hp : p x = true
    · rw [List.map_cons, List.find?_cons_of_pos _ ((h x).trans hp),
        List.find?_cons_of_pos _ hp, Option.map_some']
    · rw [List.map_cons, List.find?_cons_of_neg _ (by rw [h x]; exact hp),
        List.find?_cons_of_neg _ hp, ih]

/-! ### Claim theorems -/

/-- Claim C2 (amended): switchDeck always sets the active deck id to the
requested id, even when no deck matches; when no deck matches, the exposed
card list, the deck list and the storage cell are unchanged; when a deck
matches, its cards become the exposed card list. -/
theorem c2_switchDeck_amended :
    (∀ (st : AppState) (deckId : String), (switchDeck st deckId).currentDeck = deckId)
    ∧ (∀ (st : AppState) (deckId : String),
        st.decks.find? (fun deck => deck.id == deckId) = none →
        (switchDeck st deckId).flashcards = st.flashcards ∧
        (switchDeck st deckId).decks = st.decks ∧
        (switchDeck st deckId).storage = st.storage)
    ∧ (∀ (st : AppState) (deckId : String) (d : Deck),
        st.decks.find? (fun deck => deck.id == deckId) = some d →
        (switchDeck st deckId).flashcards = d.cards) := by
  refine ⟨?_, ?_, ?_⟩
  · intro st deckId
    unfold switchDeck
    cases h : st.decks.find? (fun deck => deck.id == deckId) with
    | none => rfl
    | some d => rfl
  · intro st deckId h
    unfold switchDeck
    rw [h]
    exact ⟨rfl, rfl, rfl⟩
  · intro st deckId d h
    unfold switchDeck
    rw [h]

/-- Witness for c2_switchDeck_amended at concrete states. -/
theorem c2_switchDeck_amended_witness :
    (switchDeck initialState "nope").flashcards = initialState.flashcards ∧
    (switchDeck initialState "default").flashcards = defaultDeck.cards := by
  refine ⟨(c2_switchDeck_amended.2.1 initialState "nope" (by decide)).1, ?_⟩
  exact c2_switchDeck_amended.2.2 initialState "default" defaultDeck (by decide)

/-- Claim C2 counterexample: switching to an id that matches no deck is not
a no-op, the active deck id is moved to the nonexistent id. -/
theorem c2_counterexample :
    initialState.decks.find? (fun deck => deck.id == "nope") = none ∧
    initialState.currentDeck = "default" ∧
    (switchDeck initialState "nope").currentDeck = "nope" ∧
    switchDeck initialState "nope" ≠ initialState := by
  refine ⟨by decide, rfl, rfl, ?_⟩
  intro h
  have h2 : "nope" = "default" := congrArg AppState.currentDeck h
  exact absurd h2 (by decide)

/-- Claim C7: deleteCard is idempotent, and deleting a card id that occurs
neither in the flashcards projection nor in the active deck leaves the deck
list and the card list unchanged (only the storage mirror is rewritten). -/
theorem c7_deleteCard_idempotent :
    (∀ (st : AppState) (cardId : Int),
        deleteCard (deleteCard st cardId) cardId = deleteCard st cardId)
    ∧ (∀ (st : AppState) (cardId : Int),
        (∀ c ∈ st.flashcards, c.id ≠ cardId) →
        (∀ d ∈ st.decks, d.id = st.currentDeck → ∀ c ∈ d.cards, c.id ≠ cardId) →
        (deleteCard st cardId).decks = st.decks ∧
        (deleteCard st cardId).flashcards = st.flashcards ∧
        (deleteCard st cardId).currentDeck = st.currentDeck) := by
  constructor
  · intro st cardId
    have hmap : st.decks.map ((fun deck =>
          if (deck.id == st.currentDeck) = true then
            { deck with cards := deck.cards.filter (fun card => !(card.id == cardId)) }
          else deck) ∘
        (fun deck =>
          if (deck.id == st.currentDeck) = true then
            { deck with cards := deck.cards.filter (fun card => !(card.id == cardId)) }
          else deck)) =
        st.decks.map (fun deck =>
          if (deck.id == st.currentDeck) = true then
            { deck with cards := deck.cards.filter (fun card => !(card.id == cardId)) }
          else deck) := by
      apply List.map_congr_left
      intro d _
      obtain ⟨di, dn, dc⟩ := d
      by_cases h : (di == st.currentDeck) = true
      · have heq : di = st.currentDeck := by simpa using h
        subst heq
        simp [filter_self_filter]
      · have hne : ¬ di = st.currentDeck := by simpa using h
        simp [hne]
    simp only [deleteCard, List.map_map, hmap, filter_self_filter]
  · intro st cardId h1 h2
    have hmap : st.decks.map (fun deck =>
        if (deck.id == st.currentDeck) = true then
          { deck with cards := deck.cards.filter (fun card => !(card.id == cardId)) }
        else deck) = st.decks := by
      have hpt : ∀ d ∈ st.decks, (fun deck =>
          if (deck.id == st.currentDeck) = true then
            { deck with cards := deck.cards.filter (fun card => !(card.id == cardId)) }
          else deck) d = d := by
        intro d hd
        by_cases h : (d.id == st.currentDeck) = true
        · have hidd : d.id = st.currentDeck := by simpa using h
          have hcards : d.cards.filter (fun card => !(card.id == cardId)) = d.cards := by
            rw [List.filter_eq_self]
            intro c hc
            simpa using h2 d hd hidd c hc
          obtain ⟨di, dn, dc⟩ := d
          simp only at hcards
          simp [h, hcards]
        · simp [h]
      rw [List.map_congr_left hpt, List.map_id']
    have hfl : st.flashcards.filter (fun card => !(card.id == cardId)) = st.flashcards := by
      rw [List.filter_eq_self]
      intro c hc
      simpa using h1 c hc
    refine ⟨?_, ?_, ?_⟩ <;> simp only [deleteCard, hmap, hfl]

/-- Witness for c7_deleteCard_idempotent at a concrete state. -/
theorem c7_deleteCard_idempotent_witness :
    (deleteCard initialState 7).decks = initialState.decks ∧
    (deleteCard initialState 7).flashcards = initialState.flashcards ∧
    (deleteCard initialState 7).currentDeck = initialState.currentDeck :=
  c7_deleteCard_idempotent.2 initialState 7 (by decide) (by decide)

/-- Claim C4: createDeck signals a ValidationError and changes nothing when
the trimmed name is empty or duplicates an existing name case-insensitively;
otherwise it appends exactly one deck with the trimmed name and no cards to
the end of the list, persists the new list, and leaves every other state
variable, in particular the active deck id, unchanged. -/
theorem c4_createDeck_spec :
    (∀ (st : AppState) (name newId : String), jsTrim name = "" →
        createDeck st name newId = Except.error OpError.validationError)
    ∧ (∀ (st : AppState) (name newId : String),
        st.decks.any (fun deck => jsToLower deck.name == jsToLower (jsTrim name)) = true →
        createDeck st name newId = Except.error OpError.validationError)
    ∧ (∀ (st : AppState) (name newId : String), jsTrim name ≠ "" →
        st.decks.any (fun deck => jsToLower deck.name == jsToLower (jsTrim name)) = false →
        createDeck st name newId = Except.ok { st with
          decks := st.decks ++ [⟨newId, jsTrim name, []⟩],
          storage := saveData (st.decks ++ [⟨newId, jsTrim name, []⟩]) }) := by
  refine ⟨?_, ?_, ?_⟩
  · intro st name newId h
    unfold createDeck
    rw [if_pos h]
  · intro st name newId hdup
    unfold createDeck
    by_cases h : jsTrim name = ""
    · rw [if_pos h]
    · rw [if_neg h, if_pos hdup]
  · intro st name newId h hdup
    unfold createDeck
    rw [if_neg h, if_neg (by rw [hdup]; exact Bool.false_ne_true)]

/-- Witness for c4_createDeck_spec at concrete inputs. -/
theorem c4_createDeck_spec_witness :
    createDeck initialState "   " "1" = Except.error OpError.validationError ∧
    createDeck initialState " my CARDS" "1" = Except.error OpError.validationError ∧
    createDeck initialState "Math" "1" = Except.ok { initialState with
      decks := initialState.decks ++ [⟨"1", "Math", []⟩],
      storage := saveData (initialState.decks ++ [⟨"1", "Math", []⟩]) } :=
  ⟨c4_createDeck_spec.1 initialState "   " "1" (by decide),
   c4_createDeck_spec.2.1 initialState " my CARDS" "1" (by decide),
   c4_createDeck_spec.2.2 initialState "Math" "1" (by decide) (by decide)⟩

/-- Claim C6: with both trimmed fields non-empty and a fresh card id,
saveCard succeeds, the active deck gains exactly one card, and the new card
is retrievable from the active deck by its id; with either trimmed field
empty it signals a ValidationError without returning a new state. -/
theorem c6_addCard_spec :
    (∀ (st : AppState) (q a : String) (cid : Int) (ts : String),
        jsTrim q = "" ∨ jsTrim a = "" →
        saveCard st q a cid ts = Except.error OpError.validationError)
    ∧ (∀ (st : AppState) (q a : String) (cid : Int) (ts : String) (d : Deck)
        (st1 : AppState), jsTrim q ≠ "" → jsTrim a ≠ "" →
        st.decks.find? (fun deck => deck.id == st.currentDeck) = some d →
        (∀ c ∈ d.cards, c.id ≠ cid) →
        saveCard st q a cid ts = Except.ok st1 →
        ∃ d1, st1.decks.find? (fun deck => deck.id == st.currentDeck) = some d1 ∧
          d1.cards.length = d.cards.length + 1 ∧
          d1.cards.find? (fun c => c.id == cid) = some ⟨cid, jsTrim q, jsTrim a, ts⟩) := by
  constructor
  · intro st q a cid ts h
    unfold saveCard
    rcases h with h | h
    · rw [if_pos (by rw [h]; simp)]
    · rw [if_pos (by rw [h]; simp)]
  · intro st q a cid ts d st1 hq ha hfind hfresh hok
    unfold saveCard at hok
    rw [if_neg (by simp [hq, ha])] at hok
    injection hok with hok
    subst hok
    have hid : (d.id == st.currentDeck) = true :=
      @List.find?_some _ (fun deck => deck.id == st.currentDeck) d st.decks hfind
    refine ⟨{ d with cards := d.cards ++ [⟨cid, jsTrim q, jsTrim a, ts⟩] }, ?_, by simp, ?_⟩
    · have hpred : ∀ x : Deck, (((fun deck =>
          if (deck.id == st.currentDeck) = true then
            { deck with cards := deck.cards ++ [(⟨cid, jsTrim q, jsTrim a, ts⟩ : Card)] }
          else deck) x).id == st.currentDeck) = (x.id == st.currentDeck) := by
        intro x
        by_cases hx : (x.id == st.currentDeck) = true
        · rw [hx]
          simp only [if_true, hx]
        · simp only [hx, Bool.false_eq_true, if_false]
      have := find?_map_pred (fun deck =>
          if (deck.id == st.currentDeck) = true then
            { deck with cards := deck.cards ++ [(⟨cid, jsTrim q, jsTrim a, ts⟩ : Card)] }
          else deck) (fun deck => deck.id == st.currentDeck) st.decks hpred
      simp only [this, hfind, Option.map_some', hid, if_true]
    · rw [List.find?_append]
      have hnone : d.cards.find? (fun c => c.id == cid) = none := by
        rw [List.find?_eq_none]
        intro c hc
        simpa using hfresh c hc
      rw [hnone]
      simp

/-- Witness for c6_addCard_spec at concrete inputs. -/
theorem c6_addCard_spec_witness :
    saveCard initialState "q" " " 5 "t" = Except.error OpError.validationError ∧
    (∃ d1, ({ initialState with
          decks := [⟨"default", "My Cards", [⟨5, "2+2?", "4", "t"⟩]⟩],
          storage := saveData [⟨"default", "My Cards", [⟨5, "2+2?", "4", "t"⟩]⟩],
          flashcards := [⟨5, "2+2?", "4", "t"⟩] } : AppState).decks.find?
            (fun deck => deck.id == initialState.currentDeck) = some d1 ∧
      d1.cards.length = defaultDeck.cards.length + 1 ∧
      d1.cards.find? (fun c => c.id == (5 : Int)) = some ⟨5, "2+2?", "4", "t"⟩) := by
  constructor
  · exact c6_addCard_spec.1 initialState "q" " " 5 "t" (Or.inr (by decide))
  · exact c6_addCard_spec.2 initialState " 2+2? " "4" 5 "t" defaultDeck _
      (by decide) (by decide) (by decide) (by decide) (by rfl)

lemma nextCard_iterate (k : Nat) : ∀ s : AppState,
    s.currentCardIndex + k ≤ s.flashcards.length - 1 → s.studyMode = true →
    (nextCard^[k] s).currentCardIndex = s.currentCardIndex + k ∧
    (nextCard^[k] s).studyMode = true ∧
    (nextCard^[k] s).flashcards = s.flashcards := by
  induction k with
  | zero => intro s _ hm; exact ⟨rfl, hm, rfl⟩
  | succ k ih =>
    intro s hk hm
    rw [Function.iterate_succ_apply]
    have hlt : s.currentCardIndex < s.flashcards.length - 1 := by omega
    have hstep : nextCard s = { s with
        currentCardIndex := s.currentCardIndex + 1, showAnswer := false } := by
      unfold nextCard
      rw [if_pos hlt]
    have hidx : (nextCard s).currentCardIndex = s.currentCardIndex + 1 := by rw [hstep]
    have hfl : (nextCard s).flashcards = s.flashcards := by rw [hstep]
    have hsm : (nextCard s).studyMode = true := by rw [hstep]; exact hm
    obtain ⟨h1, h2, h3⟩ := ih (nextCard s) (by rw [hidx, hfl]; omega) hsm
    rw [hidx] at h1
    rw [hfl] at h3
    exact ⟨by omega, h2, h3⟩

/-- Claim C9: a study session over an N-card deck starts in study mode at
index 0; the first N-1 advances visit indices 0 through N-1 in order while
remaining in study mode; the N-th advance leaves study mode; and starting
a session over an empty card list changes nothing. -/
theorem c9_study_session (st : AppState) (N : Nat) (hN : 1 ≤ N)
    (hlen : st.flashcards.length = N) :
    ((studyCards st).currentCardIndex = 0 ∧ (studyCards st).studyMode = true)
    ∧ (∀ k, k ≤ N - 1 →
        (nextCard^[k] (studyCards st)).currentCardIndex = k ∧
        (nextCard^[k] (studyCards st)).studyMode = true)
    ∧ (nextCard^[N] (studyCards st)).studyMode = false
    ∧ (∀ st2 : AppState, st2.flashcards = [] → studyCards st2 = st2) := by
  have hne : ¬ st.flashcards.length = 0 := by omega
  have hstart : studyCards st = { st with
      studyMode := true, currentCardIndex := 0, showAnswer := false } := by
    unfold studyCards
    rw [if_neg hne]
  have hidx0 : (studyCards st).currentCardIndex = 0 := by rw [hstart]
  have hsm0 : (studyCards st).studyMode = true := by rw [hstart]
  have hfl0 : (studyCards st).flashcards = st.flashcards := by rw [hstart]
  have hterm : ∀ s : AppState, ¬ s.currentCardIndex < s.flashcards.length - 1 →
      (nextCard s).studyMode = false := by
    intro s h
    unfold nextCard
    rw [if_neg h]
  refine ⟨⟨hidx0, hsm0⟩, ?_, ?_, ?_⟩
  · intro k hk
    obtain ⟨h1, h2, _⟩ := nextCard_iterate k (studyCards st)
      (by rw [hidx0, hfl0, hlen]; omega) hsm0
    rw [hidx0] at h1
    exact ⟨by omega, h2⟩
  · have hNsplit : N = (N - 1) + 1 := by omega
    rw [hNsplit, Function.iterate_succ_apply']
    obtain ⟨h1, _, h3⟩ := nextCard_iterate (N - 1) (studyCards st)
      (by rw [hidx0, hfl0, hlen]; omega) hsm0
    rw [hidx0] at h1
    have hlen2 : (nextCard^[N - 1] (studyCards st)).flashcards.length = N := by
      rw [h3, hfl0, hlen]
    exact hterm _ (by omega)
  · intro st2 h2
    unfold studyCards
    rw [if_pos (by rw [h2]; rfl)]

/-- Witness for c9_study_session over a concrete two-card deck. -/
theorem c9_study_session_witness :
    ((studyCards { initialState with
        flashcards := [⟨1, "q1", "a1", "t"⟩, ⟨2, "q2", "a2", "t"⟩] }).currentCardIndex = 0)
    ∧ ((nextCard^[1] (studyCards { initialState with
        flashcards := [⟨1, "q1", "a1", "t"⟩, ⟨2, "q2", "a2", "t"⟩] })).currentCardIndex = 1)
    ∧ ((nextCard^[2] (studyCards { initialState with
        flashcards := [⟨1, "q1", "a1", "t"⟩, ⟨2, "q2", "a2", "t"⟩] })).studyMode = false) := by
  have h := c9_study_session { initialState with
      flashcards := [⟨1, "q1", "a1", "t"⟩, ⟨2, "q2", "a2", "t"⟩] } 2 (by decide) (by decide)
  exact ⟨h.1.1, (h.2.1 1 (by decide)).1, h.2.2.1⟩

/-- Claim C1 (amended): the invariant that the active deck id references a
deck in the deck list is preserved by every successful createDeck,
deleteDeck, saveCard and deleteCard, and by switchDeck when the requested
id matches a deck; deleting the active deck points the active deck id at
the first deck of the remaining list and exposes its cards. It is not
preserved by switchDeck with an unknown id, nor across loadData when the
stored deck list does not contain the current active id. -/
theorem c1_active_deck_amended :
    (∀ (st : AppState) (name newId : String) (st1 : AppState), activeOk st →
        createDeck st name newId = Except.ok st1 → activeOk st1)
    ∧ (∀ (st : AppState) (deckId : String) (st1 : AppState), activeOk st →
        deleteDeck st deckId = Except.ok st1 → activeOk st1)
    ∧ (∀ (st : AppState) (deckId : String) (st1 : AppState),
        st.currentDeck = deckId → deleteDeck st deckId = Except.ok st1 →
        ∃ d0 rest, st1.decks = d0 :: rest ∧ st1.currentDeck = d0.id ∧
          st1.flashcards = d0.cards)
    ∧ (∀ (st : AppState) (deckId : String) (d : Deck),
        st.decks.find? (fun deck => deck.id == deckId) = some d →
        activeOk (switchDeck st deckId))
    ∧ (∀ (st : AppState) (q a : String) (cid : Int) (ts : String) (st1 : AppState),
        activeOk st → saveCard st q a cid ts = Except.ok st1 → activeOk st1)
    ∧ (∀ (st : AppState) (cid : Int), activeOk st → activeOk (deleteCard st cid)) := by
  refine ⟨?_, ?_, ?_, ?_, ?_, ?_⟩
  · intro st name newId st1 hok hcr
    unfold createDeck at hcr
    split at hcr
    · exact absurd hcr (by simp)
    · split at hcr
      · exact absurd hcr (by simp)
      · injection hcr with hcr
        subst hcr
        obtain ⟨d, hd, hid⟩ := hok
        exact ⟨d, List.mem_append_left _ hd, hid⟩
  · intro st deckId st1 hok hdel
    unfold deleteDeck at hdel
    split at hdel
    · exact absurd hdel (by simp)
    · split at hdel
      · exact absurd hdel (by simp)
      · by_cases hcur : st.currentDeck = deckId
        · rw [if_pos hcur] at hdel
          cases hfil : st.decks.filter (fun deck => !(deck.id == deckId)) with
          | nil => rw [hfil] at hdel; exact absurd hdel (by simp)
          | cons d0 rest =>
            rw [hfil] at hdel
            injection hdel with hdel
            subst hdel
            exact ⟨d0, List.mem_cons_self _ _, rfl⟩
        · rw [if_neg hcur] at hdel
          injection hdel with hdel
          subst hdel
          obtain ⟨d, hd, hid⟩ := hok
          refine ⟨d, List.mem_filter.mpr ⟨hd, ?_⟩, hid⟩
          simp only [Bool.not_eq_true', beq_eq_false_iff_ne, ne_eq]
          intro hcontra
          exact hcur (hid.symm.trans hcontra)
  · intro st deckId st1 hcur hdel
    unfold deleteDeck at hdel
    split at hdel
    · exact absurd hdel (by simp)
    · split at hdel
      · exact absurd hdel (by simp)
      · cases hfil : st.decks.filter (fun deck => !(deck.id == deckId)) with
        | nil => rw [hfil] at hdel; exact absurd hdel (by simp)
        | cons d0 rest =>
          rw [hfil] at hdel
          injection hdel with hdel
          subst hdel
          exact ⟨d0, rest, rfl, rfl, rfl⟩
  · intro st deckId d hfind
    have hid : (d.id == deckId) = true :=
      @List.find?_some _ (fun deck => deck.id == deckId) d st.decks hfind
    have hmem : d ∈ st.decks := List.mem_of_find?_eq_some hfind
    unfold switchDeck
    rw [hfind]
    exact ⟨d, hmem, by simpa using hid⟩
  · intro st q a cid ts st1 hok hsv
    unfold saveCard at hsv
    split at hsv
    · exact absurd hsv (by simp)
    · injection hsv with hsv
      subst hsv
      obtain ⟨d, hd, hid⟩ := hok
      by_cases h : (d.id == st.currentDeck) = true
      · exact ⟨{ d with cards := d.cards ++ [⟨cid, jsTrim q, jsTrim a, ts⟩] },
          List.mem_map.mpr ⟨d, hd, by rw [if_pos h]⟩, hid⟩
      · exact ⟨d, List.mem_map.mpr ⟨d, hd, by rw [if_neg h]⟩, hid⟩
  · intro st cid hok
    obtain ⟨d, hd, hid⟩ := hok
    unfold deleteCard
    by_cases h : (d.id == st.currentDeck) = true
    · exact ⟨{ d with cards := d.cards.filter (fun card => !(card.id == cid)) },
        List.mem_map.mpr ⟨d, hd, by rw [if_pos h]⟩, hid⟩
    · exact ⟨d, List.mem_map.mpr ⟨d, hd, by rw [if_neg h]⟩, hid⟩

/-- Witness for c1_active_deck_amended at concrete states. -/
theorem c1_active_deck_amended_witness :
    activeOk { initialState with
      decks := initialState.decks ++ [⟨"1", "Math", []⟩],
      storage := saveData (initialState.decks ++ [⟨"1", "Math", []⟩]) } ∧
    activeOk (switchDeck initialState "default") := by
  constructor
  · exact c1_active_deck_amended.1 initialState "Math" "1" _
      ⟨defaultDeck, List.mem_cons_self _ _, rfl⟩ (by rfl)
  · exact c1_active_deck_amended.2.2.2.1 initialState "default" defaultDeck (by decide)

/-- Claim C1 counterexample: from the initial state, where the invariant
holds, switchDeck with an id matching no deck leaves the active deck id
referencing no deck in the list. -/
theorem c1_counterexample :
    activeOk initialState ∧ ¬ activeOk (switchDeck initialState "nope") := by
  constructor
  · exact ⟨defaultDeck, List.mem_cons_self _ _, rfl⟩
  · rintro ⟨d, hd, hid⟩
    have hd2 : d ∈ [defaultDeck] := hd
    have : d = defaultDeck := by simpa using hd2
    subst this
    have hcur : (switchDeck initialState "nope").currentDeck = "nope" := rfl
    rw [hcur] at hid
    exact absurd hid (by decide)

/-- Claim C10 (amended): the invariant that the flashcards projection
equals the cards of the deck referenced by the active deck id is preserved
by every successful createDeck, deleteDeck, saveCard and deleteCard, and
is established by switchDeck whenever the requested id matches a deck. It
is not preserved by loadData when the stored deck list has no well-formed
entry for the current active id. -/
theorem c10_flashSync_amended :
    (∀ (st : AppState) (name newId : String) (st1 : AppState), flashSync st →
        createDeck st name newId = Except.ok st1 → flashSync st1)
    ∧ (∀ (st : AppState) (deckId : String) (st1 : AppState), flashSync st →
        deleteDeck st deckId = Except.ok st1 → flashSync st1)
    ∧ (∀ (st : AppState) (deckId : String) (d : Deck),
        st.decks.find? (fun deck => deck.id == deckId) = some d →
        flashSync (switchDeck st deckId))
    ∧ (∀ (st : AppState) (q a : String) (cid : Int) (ts : String) (st1 : AppState),
        flashSync st → saveCard st q a cid ts = Except.ok st1 → flashSync st1)
    ∧ (∀ (st : AppState) (cid : Int), flashSync st → flashSync (deleteCard st cid)) := by
  refine ⟨?_, ?_, ?_, ?_, ?_⟩
  · intro st name newId st1 hs hcr
    obtain ⟨d, hfind, hfl⟩ := hs
    unfold createDeck at hcr
    split at hcr
    · exact absurd hcr (by simp)
    · split at hcr
      · exact absurd hcr (by simp)
      · injection hcr with hcr
        subst hcr
        refine ⟨d, ?_, hfl⟩
        show (st.decks ++ [(⟨newId, jsTrim name, []⟩ : Deck)]).find?
          (fun deck => deck.id == st.currentDeck) = some d
        rw [List.find?_append, hfind]
        rfl
  · intro st deckId st1 hs hdel
    obtain ⟨d, hfind, hfl⟩ := hs
    unfold deleteDeck at hdel
    split at hdel
    · exact absurd hdel (by simp)
    · split at hdel
      · exact absurd hdel (by simp)
      · by_cases hcur : st.currentDeck = deckId
        · rw [if_pos hcur] at hdel
          cases hfil : st.decks.filter (fun deck => !(deck.id == deckId)) with
          | nil => rw [hfil] at hdel; exact absurd hdel (by simp)
          | cons d0 rest =>
            rw [hfil] at hdel
            injection hdel with hdel
            subst hdel
            exact ⟨d0, List.find?_cons_of_pos _ (by simp), rfl⟩
        · rw [if_neg hcur] at hdel
          injection hdel with hdel
          subst hdel
          refine ⟨d, ?_, hfl⟩
          show (st.decks.filter (fun deck => !(deck.id == deckId))).find?
            (fun deck => deck.id == st.currentDeck) = some d
          rw [find?_filter_of_imp]
          · exact hfind
          · intro x hx
            have hxid : x.id = st.currentDeck := by simpa using hx
            simp only [Bool.not_eq_true', beq_eq_false_iff_ne, ne_eq]
            intro hcontra
            exact hcur (hxid.symm.trans hcontra)
  · intro st deckId d hfind
    unfold switchDeck
    rw [hfind]
    exact ⟨d, hfind, rfl⟩
  · intro st q a cid ts st1 hs hsv
    obtain ⟨d, hfind, hfl⟩ := hs
    unfold saveCard at hsv
    split at hsv
    · exact absurd hsv (by simp)
    · injection hsv with hsv
      subst hsv
      have hid : (d.id == st.currentDeck) = true :=
        @List.find?_some _ (fun deck => deck.id == st.currentDeck) d st.decks hfind
      have hpred : ∀ x : Deck, (((fun deck =>
          if (deck.id == st.currentDeck) = true then
            { deck with cards := deck.cards ++ [(⟨cid, jsTrim q, jsTrim a, ts⟩ : Card)] }
          else deck) x).id == st.currentDeck) = (x.id == st.currentDeck) := by
        intro x
        by_cases hx : (x.id == st.currentDeck) = true
        · rw [hx]
          simp only [if_true, hx]
        · simp only [hx, Bool.false_eq_true, if_false]
      refine ⟨{ d with cards := d.cards ++ [⟨cid, jsTrim q, jsTrim a, ts⟩] }, ?_, ?_⟩
      · show (st.decks.map (fun deck =>
            if (deck.id == st.currentDeck) = true then
              { deck with cards := deck.cards ++ [(⟨cid, jsTrim q, jsTrim a, ts⟩ : Card)] }
            else deck)).find? (fun deck => deck.id == st.currentDeck) =
          some { d with cards := d.cards ++ [(⟨cid, jsTrim q, jsTrim a, ts⟩ : Card)] }
        rw [find?_map_pred _ _ _ hpred, hfind, Option.map_some', if_pos hid]
      · show st.flashcards ++ [(⟨cid, jsTrim q, jsTrim a, ts⟩ : Card)] =
          ({ d with cards := d.cards ++ [(⟨cid, jsTrim q, jsTrim a, ts⟩ : Card)] } : Deck).cards
        rw [hfl]
  · intro st cid hs
    obtain ⟨d, hfind, hfl⟩ := hs
    have hid : (d.id == st.currentDeck) = true :=
      @List.find?_some _ (fun deck => deck.id == st.currentDeck) d st.decks hfind
    have hpred : ∀ x : Deck, (((fun deck =>
        if (deck.id == st.currentDeck) = true then
          { deck with cards := deck.cards.filter (fun card => !(card.id == cid)) }
        else deck) x).id == st.currentDeck) = (x.id == st.currentDeck) := by
      intro x
      by_cases hx : (x.id == st.currentDeck) = true
      · rw [hx]
        simp only [if_true, hx]
      · simp only [hx, Bool.false_eq_true, if_false]
    unfold deleteCard
    refine ⟨{ d with cards := d.cards.filter (fun card => !(card.id == cid)) }, ?_, ?_⟩
    · show (st.decks.map (fun deck =>
          if (deck.id == st.currentDeck) = true then
            { deck with cards := deck.cards.filter (fun card => !(card.id == cid)) }
          else deck)).find? (fun deck => deck.id == st.currentDeck) =
        some { d with cards := d.cards.filter (fun card => !(card.id == cid)) }
      rw [find?_map_pred _ _ _ hpred, hfind, Option.map_some', if_pos hid]
    · show st.flashcards.filter (fun card => !(card.id == cid)) =
        ({ d with cards := d.cards.filter (fun card => !(card.id == cid)) } : Deck).cards
      rw [hfl]

/-- Witness for c10_flashSync_amended at concrete states. -/
theorem c10_flashSync_amended_witness :
    flashSync (switchDeck initialState "default") ∧
    flashSync (deleteCard initialState 3) := by
  constructor
  · exact c10_flashSync_amended.2.2.1 initialState "default" defaultDeck (by decide)
  · exact c10_flashSync_amended.2.2.2.2 initialState 3 ⟨defaultDeck, by decide, rfl⟩

/-- Claim C10 counterexample: starting from the default state, loadData of
a stored deck list that contains no deck with the current active id leaves
the flashcards projection related to no deck: the invariant held before the
load and fails after it. -/
theorem c10_counterexample :
    rawFlashSync ⟨[defaultDeckJson], [], "default",
      Stored.val (Json.arr [encodeDeck ⟨"abc", "Foo", []⟩])⟩ ∧
    ¬ rawFlashSync (loadData ⟨[defaultDeckJson], [], "default",
      Stored.val (Json.arr [encodeDeck ⟨"abc", "Foo", []⟩])⟩) := by
  constructor
  · exact ⟨defaultDeckJson, [], rfl, rfl, rfl⟩
  · rintro ⟨cd, cs, hfind, _, _⟩
    have h2 : (Except.ok (none : Option Json) : Except Unit (Option Json)) =
        Except.ok (some cd) := hfind
    injection h2 with h2
    exact Option.noConfusion h2

lemma map_id_of_preserve (g : Deck → Deck) (l : List Deck)
    (h : ∀ d, (g d).id = d.id) : (l.map g).map Deck.id = l.map Deck.id := by
  rw [List.map_map]
  exact List.map_congr_left (fun d _ => h d)

lemma switchDeck_decks (st : AppState) (deckId : String) :
    (switchDeck st deckId).decks = st.decks := by
  unfold switchDeck
  cases h : st.decks.find? (fun deck => deck.id == deckId) with
  | none => rfl
  | some d => rfl

lemma studyCards_decks (st : AppState) : (studyCards st).decks = st.decks := by
  unfold studyCards
  split
  · rfl
  · rfl

lemma nextCard_decks (st : AppState) : (nextCard st).decks = st.decks := by
  unfold nextCard
  split
  · rfl
  · rfl

lemma loadFlashcards_cases (st1 : RawState) (cd : Json) :
    loadFlashcards st1 cd = resetToDefault ∨ loadFlashcards st1 cd = st1 ∨
    ∃ cs, loadFlashcards st1 cd = { st1 with flashcards := cs } := by
  unfold loadFlashcards
  split
  · exact Or.inr (Or.inr ⟨_, rfl⟩)
  · exact Or.inr (Or.inl rfl)
  · exact Or.inl rfl

lemma loadFlashcards_obj (st1 : RawState) (fields : List (String × Json)) :
    (loadFlashcards st1 (Json.obj fields)).decks = st1.decks ∧
    (loadFlashcards st1 (Json.obj fields)).currentDeck = st1.currentDeck := by
  unfold loadFlashcards
  rw [show jsGet (Json.obj fields) "cards" =
    Except.ok ((fields.find? (fun p => p.1 == "cards")).map Prod.snd) from rfl]
  cases hval : (fields.find? (fun p => p.1 == "cards")).map Prod.snd with
  | none => exact ⟨rfl, rfl⟩
  | some jv => cases jv <;> exact ⟨rfl, rfl⟩

/-- Shape of every possible loadData outcome: the state is kept (key
absent), reset to the default, or a stored non-empty array is installed as
the deck list, possibly together with a new flashcards projection. In
particular loadData is total: no stored payload makes it fail. -/
lemma loadData_cases (st : RawState) :
    loadData st = st ∨ loadData st = resetToDefault ∨
    ∃ elems, st.storage = Stored.val (Json.arr elems) ∧ 0 < elems.length ∧
      (loadData st = { st with decks := elems } ∨
       ∃ cs, loadData st = { st with decks := elems, flashcards := cs }) := by
  unfold loadData
  split
  · exact Or.inl rfl
  · exact Or.inr (Or.inl rfl)
  · rename_i j heq
    split
    · rename_i elems
      split
      · rename_i hlen
        split
        · exact Or.inr (Or.inl rfl)
        · rename_i found hfind
          split
          · exact Or.inr (Or.inr ⟨elems, heq, hlen, Or.inl rfl⟩)
          · rename_i cd
            rcases loadFlashcards_cases { st with decks := elems } cd with hc | hc | ⟨cs, hc⟩
            · exact Or.inr (Or.inl hc)
            · exact Or.inr (Or.inr ⟨elems, heq, hlen, Or.inl hc⟩)
            · exact Or.inr (Or.inr ⟨elems, heq, hlen, Or.inr ⟨cs, hc⟩⟩)
      · exact Or.inr (Or.inl rfl)
    · exact Or.inr (Or.inl rfl)

lemma applyOp_deck_invariant (st : AppState) (op : Op)
    (h1 : 1 ≤ st.decks.length) (h2 : (st.decks.map Deck.id).Nodup)
    (h3 : (match op with
           | Op.create _ newId => decide (newId ∉ st.decks.map Deck.id)
           | _ => true) = true) :
    1 ≤ (applyOp st op).decks.length ∧ ((applyOp st op).decks.map Deck.id).Nodup := by
  cases op with
  | create name newId =>
    have hfresh : newId ∉ st.decks.map Deck.id := of_decide_eq_true h3
    cases hcr : createDeck st name newId with
    | error e => simp only [applyOp, hcr]; exact ⟨h1, h2⟩
    | ok s =>
      simp only [applyOp, hcr]
      unfold createDeck at hcr
      split at hcr
      · exact absurd hcr (by simp)
      · split at hcr
        · exact absurd hcr (by simp)
        · injection hcr with hcr
          subst hcr
          refine ⟨by simp, ?_⟩
          show ((st.decks ++ [(⟨newId, jsTrim name, []⟩ : Deck)]).map Deck.id).Nodup
          rw [List.map_append]
          refine List.nodup_append.mpr ⟨h2, List.nodup_singleton _, ?_⟩
          intro x hx hx2
          have : x = newId := by simpa using hx2
          subst this
          exact hfresh hx
  | remove deckId =>
    cases hdel : deleteDeck st deckId with
    | error e => simp only [applyOp, hdel]; exact ⟨h1, h2⟩
    | ok s =>
      simp only [applyOp, hdel]
      unfold deleteDeck at hdel
      split at hdel
      · exact absurd hdel (by simp)
      · rename_i hlen
        split at hdel
        · exact absurd hdel (by simp)
        · have hnodup2 : ((st.decks.filter (fun deck => !(deck.id == deckId))).map Deck.id).Nodup :=
            List.Nodup.sublist (List.Sublist.map Deck.id (List.filter_sublist _)) h2
          have hsum := length_filter_add_length_filter_not
            (fun deck => deck.id == deckId) st.decks
          have hnodupP : ((st.decks.filter (fun deck => deck.id == deckId)).map Deck.id).Nodup :=
            List.Nodup.sublist (List.Sublist.map Deck.id (List.filter_sublist _)) h2
          have hall : ∀ x ∈ (st.decks.filter (fun deck => deck.id == deckId)).map Deck.id,
              x = deckId := by
            intro x hx
            obtain ⟨y, hy, hxy⟩ := List.mem_map.mp hx
            have hp := List.of_mem_filter hy
            rw [← hxy]
            simpa using hp
          have hle := length_le_one_of_nodup_all_eq hnodupP hall
          rw [List.length_map] at hle
          by_cases hcur : st.currentDeck = deckId
          · rw [if_pos hcur] at hdel
            cases hfil : st.decks.filter (fun deck => !(deck.id == deckId)) with
            | nil => rw [hfil] at hdel; exact absurd hdel (by simp)
            | cons d0 rest =>
              rw [hfil] at hdel
              injection hdel with hdel
              subst hdel
              refine ⟨by simp, ?_⟩
              show ((d0 :: rest).map Deck.id).Nodup
              rw [← hfil]
              exact hnodup2
          · rw [if_neg hcur] at hdel
            injection hdel with hdel
            subst hdel
            refine ⟨?_, hnodup2⟩
            show 1 ≤ (st.decks.filter (fun deck => !(deck.id == deckId))).length
            omega
  | switch deckId =>
    show 1 ≤ (switchDeck st deckId).decks.length ∧
      ((switchDeck st deckId).decks.map Deck.id).Nodup
    rw [switchDeck_decks]
    exact ⟨h1, h2⟩
  | addCard q a cid ts =>
    cases hsv : saveCard st q a cid ts with
    | error e => simp only [applyOp, hsv]; exact ⟨h1, h2⟩
    | ok s =>
      simp only [applyOp, hsv]
      unfold saveCard at hsv
      split at hsv
      · exact absurd hsv (by simp)
      · injection hsv with hsv
        subst hsv
        have hpre : ∀ d : Deck, ((fun deck =>
            if (deck.id == st.currentDeck) = true then
              { deck with cards := deck.cards ++ [(⟨cid, jsTrim q, jsTrim a, ts⟩ : Card)] }
            else deck) d).id = d.id := by
          intro d
          show (if (d.id == st.currentDeck) = true then
              { d with cards := d.cards ++ [(⟨cid, jsTrim q, jsTrim a, ts⟩ : Card)] }
            else d).id = d.id
          by_cases hx : (d.id == st.currentDeck) = true
          · rw [if_pos hx]
          · rw [if_neg hx]
        refine ⟨by simp; omega, ?_⟩
        show ((st.decks.map (fun deck =>
            if (deck.id == st.currentDeck) = true then
              { deck with cards := deck.cards ++ [(⟨cid, jsTrim q, jsTrim a, ts⟩ : Card)] }
            else deck)).map Deck.id).Nodup
        rw [map_id_of_preserve _ _ hpre]
        exact h2
  | removeCard cid =>
    have hpre : ∀ d : Deck, ((fun deck =>
        if (deck.id == st.currentDeck) = true then
          { deck with cards := deck.cards.filter (fun card => !(card.id == cid)) }
        else deck) d).id = d.id := by
      intro d
      show (if (d.id == st.currentDeck) = true then
          { d with cards := d.cards.filter (fun card => !(card.id == cid)) }
        else d).id = d.id
      by_cases hx : (d.id == st.currentDeck) = true
      · rw [if_pos hx]
      · rw [if_neg hx]
    refine ⟨by simp [applyOp, deleteCard]; omega, ?_⟩
    show (((deleteCard st cid).decks).map Deck.id).Nodup
    show ((st.decks.map (fun deck =>
        if (deck.id == st.currentDeck) = true then
          { deck with cards := deck.cards.filter (fun card => !(card.id == cid)) }
        else deck)).map Deck.id).Nodup
    rw [map_id_of_preserve _ _ hpre]
    exact h2
  | study =>
    show 1 ≤ (studyCards st).decks.length ∧
      ((studyCards st).decks.map Deck.id).Nodup
    rw [studyCards_decks]
    exact ⟨h1, h2⟩
  | next =>
    show 1 ≤ (nextCard st).decks.length ∧
      ((nextCard st).decks.map Deck.id).Nodup
    rw [nextCard_decks]
    exact ⟨h1, h2⟩
  | flip => exact ⟨h1, h2⟩

lemma run_deck_invariant (ops : List Op) : ∀ st : AppState,
    1 ≤ st.decks.length → (st.decks.map Deck.id).Nodup → freshIds st ops = true →
    1 ≤ (run st ops).decks.length ∧ ((run st ops).decks.map Deck.id).Nodup := by
  induction ops with
  | nil => intro st h1 h2 _; exact ⟨h1, h2⟩
  | cons op rest ih =>
    intro st h1 h2 hf
    unfold freshIds at hf
    rw [Bool.and_eq_true] at hf
    obtain ⟨h1', h2'⟩ := applyOp_deck_invariant st op h1 h2 hf.1
    exact ih (applyOp st op) h1' h2' hf.2

/-- Claim C3: over every sequence of user operations with collision-free
generated ids the deck list stays non-empty; deleting when only one deck
remains is rejected with an InvariantError before anything is touched; and
loadData never shrinks a non-empty deck list to an empty one. -/
theorem c3_deck_count_ge_one :
    (∀ ops : List Op, freshIds initialState ops = true →
        1 ≤ (run initialState ops).decks.length)
    ∧ (∀ (st : AppState) (deckId : String), st.decks.length = 1 →
        deleteDeck st deckId = Except.error OpError.invariantError)
    ∧ (∀ rst : RawState, 1 ≤ rst.decks.length → 1 ≤ (loadData rst).decks.length) := by
  refine ⟨?_, ?_, ?_⟩
  · intro ops hf
    exact (run_deck_invariant ops initialState (by decide) (by decide) hf).1
  · intro st deckId hlen
    unfold deleteDeck
    rw [if_pos (by omega)]
  · intro rst h
    rcases loadData_cases rst with hc | hc | ⟨elems, _, hlen, hc | ⟨cs, hc⟩⟩
    · rw [hc]; exact h
    · rw [hc]; exact Nat.le_refl 1
    · rw [hc]; exact hlen
    · rw [hc]; exact hlen

/-- Witness for c3_deck_count_ge_one at concrete inputs. -/
theorem c3_deck_count_ge_one_witness :
    1 ≤ (run initialState [Op.create "Math" "100", Op.remove "default"]).decks.length ∧
    deleteDeck initialState "x" = Except.error OpError.invariantError ∧
    1 ≤ (loadData resetToDefault).decks.length :=
  ⟨c3_deck_count_ge_one.1 [Op.create "Math" "100", Op.remove "default"] (by decide),
   c3_deck_count_ge_one.2.1 initialState "x" (by decide),
   c3_deck_count_ge_one.2.2 resetToDefault (by decide)⟩

lemma jsFindById_ok_some_obj (elems : List Json) (t : String) (cd : Json)
    (h : jsFindById elems t = Except.ok (some cd)) : ∃ fields, cd = Json.obj fields := by
  induction elems with
  | nil =>
    simp only [jsFindById] at h
    injection h with h
    exact Option.noConfusion h
  | cons e rest ih =>
    simp only [jsFindById] at h
    cases hg : jsGet e "id" with
    | error u => rw [hg] at h; exact absurd h (by simp)
    | ok idField =>
      rw [hg] at h
      cases idField with
      | none => exact ih h
      | some jv =>
        cases jv with
        | str s =>
          have h2 : (if s = t then Except.ok (some e) else jsFindById rest t)
              = Except.ok (some cd) := h
          by_cases hs : s = t
          · rw [if_pos hs] at h2
            have he : e = cd := by
              injection h2 with h3
              injection h3
            subst he
            cases e with
            | obj fields => exact ⟨fields, rfl⟩
            | null => exact absurd hg (by simp [jsGet])
            | bool b => simp [jsGet] at hg
            | num n => simp [jsGet] at hg
            | str s2 => simp [jsGet] at hg
            | arr xs => simp [jsGet] at hg
          · rw [if_neg hs] at h2
            exact ih h2
        | null => exact ih h
        | bool b => exact ih h
        | num n => exact ih h
        | arr xs => exact ih h
        | obj fs => exact ih h

/-- On the accepted path (stored value present, non-empty array, active deck
lookup returning without a throw) loadData installs the stored array as the
deck list and keeps the active deck id. -/
lemma loadData_accepted (st : RawState) (elems : List Json) (r : Option Json)
    (hs : st.storage = Stored.val (Json.arr elems)) (hne : elems ≠ [])
    (hfind : jsFindById elems st.currentDeck = Except.ok r) :
    (loadData st).decks = elems ∧ (loadData st).currentDeck = st.currentDeck := by
  obtain ⟨dks, fls, cur, sto⟩ := st
  simp only at hs hfind ⊢
  subst hs
  have hlen : 0 < elems.length := List.length_pos.mpr hne
  simp only [loadData]
  rw [if_pos hlen, hfind]
  cases r with
  | none => exact ⟨rfl, rfl⟩
  | some cd =>
    obtain ⟨fields, hcd⟩ := jsFindById_ok_some_obj elems cur cd hfind
    subst hcd
    have hobj := loadFlashcards_obj
      { decks := elems, flashcards := fls, currentDeck := cur,
        storage := Stored.val (Json.arr elems) } fields
    exact ⟨hobj.1, hobj.2⟩

/-- Claim C5 (amended): loadData resets to the single default deck state and
persists it exactly when the stored payload is present but fails to parse,
is not an array, is an empty array, or scanning a stored non-empty array
for the active deck id throws on a null element; a stored non-empty array
whose scan returns normally is installed as the deck list without any
well-formedness check of its elements; when the key is absent the state is
left untouched and nothing is persisted; and every payload falls into one
of these cases, so loadData never fails. -/
theorem c5_load_amended :
    (∀ st : RawState, st.storage = Stored.absent → loadData st = st)
    ∧ (∀ st : RawState, st.storage = Stored.malformed → loadData st = resetToDefault)
    ∧ (∀ (st : RawState) (j : Json), st.storage = Stored.val j →
        (∀ elems, j = Json.arr elems → elems = []) → loadData st = resetToDefault)
    ∧ (∀ (st : RawState) (elems : List Json) (r : Option Json),
        st.storage = Stored.val (Json.arr elems) → elems ≠ [] →
        jsFindById elems st.currentDeck = Except.ok r →
        (loadData st).decks = elems ∧ (loadData st).currentDeck = st.currentDeck)
    ∧ (∀ (st : RawState) (elems : List Json) (u : Unit),
        st.storage = Stored.val (Json.arr elems) → elems ≠ [] →
        jsFindById elems st.currentDeck = Except.error u →
        loadData st = resetToDefault)
    ∧ (∀ st : RawState, loadData st = st ∨ loadData st = resetToDefault ∨
        ∃ elems, st.storage = Stored.val (Json.arr elems) ∧ 0 < elems.length ∧
          (loadData st = { st with decks := elems } ∨
           ∃ cs, loadData st = { st with decks := elems, flashcards := cs })) := by
  refine ⟨?_, ?_, ?_, loadData_accepted, ?_, loadData_cases⟩
  · intro st h
    obtain ⟨dks, fls, cur, sto⟩ := st
    simp only at h
    subst h
    rfl
  · intro st h
    obtain ⟨dks, fls, cur, sto⟩ := st
    simp only at h
    subst h
    rfl
  · intro st j hs hj
    obtain ⟨dks, fls, cur, sto⟩ := st
    simp only at hs
    subst hs
    cases j with
    | arr elems =>
      have helems : elems = [] := hj elems rfl
      subst helems
      rfl
    | null => rfl
    | bool b => rfl
    | num n => rfl
    | str s => rfl
    | obj fs => rfl
  · intro st elems u hs hne hfind
    obtain ⟨dks, fls, cur, sto⟩ := st
    simp only at hs hfind ⊢
    subst hs
    have hlen : 0 < elems.length := List.length_pos.mpr hne
    simp only [loadData]
    rw [if_pos hlen, hfind]

/-- Witness for c5_load_amended at concrete stored payloads. -/
theorem c5_load_amended_witness :
    loadData ⟨[defaultDeckJson], [], "default", Stored.absent⟩
      = ⟨[defaultDeckJson], [], "default", Stored.absent⟩ ∧
    loadData ⟨[defaultDeckJson], [], "default", Stored.malformed⟩ = resetToDefault ∧
    loadData ⟨[defaultDeckJson], [], "default", Stored.val (Json.arr [])⟩ = resetToDefault ∧
    (loadData ⟨[defaultDeckJson], [], "default",
      Stored.val (Json.arr [Json.num 42])⟩).decks = [Json.num 42] ∧
    loadData ⟨[defaultDeckJson], [], "default",
      Stored.val (Json.arr [Json.null])⟩ = resetToDefault := by
  refine ⟨?_, ?_, ?_, ?_, ?_⟩
  · exact c5_load_amended.1 _ rfl
  · exact c5_load_amended.2.1 _ rfl
  · exact c5_load_amended.2.2.1 _ (Json.arr []) rfl (by intro elems he; injection he with he; exact he.symm)
  · exact (c5_load_amended.2.2.2.1 ⟨[defaultDeckJson], [], "default",
      Stored.val (Json.arr [Json.num 42])⟩ [Json.num 42] none rfl (by simp) (by rfl)).1
  · exact c5_load_amended.2.2.2.2.1 ⟨[defaultDeckJson], [], "default",
      Stored.val (Json.arr [Json.null])⟩ [Json.null] () rfl (by simp) (by rfl)

/-- Claim C5 counterexample: with the storage key absent, loadData leaves
the storage cell empty instead of persisting the default deck list; and a
present non-empty array whose sole element is not a well-formed deck is
installed as the deck list instead of being replaced by the default. -/
theorem c5_counterexample :
    (loadData ⟨[defaultDeckJson], [], "default", Stored.absent⟩).storage = Stored.absent ∧
    Stored.absent ≠ saveData defaultDecks ∧
    (loadData ⟨[defaultDeckJson], [], "default",
      Stored.val (Json.arr [Json.num 42])⟩).decks = [Json.num 42] ∧
    [Json.num 42] ≠ [defaultDeckJson] := by
  refine ⟨rfl, ?_, rfl, ?_⟩
  · intro h
    have h2 : Stored.absent = Stored.val (Json.arr [encodeDeck defaultDeck]) := h
    exact Stored.noConfusion h2
  · intro h
    injection h with h1 h2
    have h3 : Json.num 42 = Json.obj [("id", Json.str "default"),
      ("name", Json.str "My Cards"), ("cards", Json.arr [])] := h1
    exact Json.noConfusion h3

lemma decodeCard_encodeCard (c : Card) : decodeCard (encodeCard c) = some c := rfl

lemma decodeCards_encodeCard (l : List Card) :
    decodeCards (l.map encodeCard) = some l := by
  induction l with
  | nil => rfl
  | cons c cs ih =>
    simp only [List.map_cons, decodeCards, decodeCard_encodeCard, ih]

lemma decodeDeck_encodeDeck (d : Deck) : decodeDeck (encodeDeck d) = some d := by
  simp [encodeDeck, decodeDeck, decodeCards_encodeCard]

lemma decodeDecks_encodeDeck (ds : List Deck) :
    decodeDecks (ds.map encodeDeck) = some ds := by
  induction ds with
  | nil => rfl
  | cons d rest ih =>
    simp only [List.map_cons, decodeDecks, decodeDeck_encodeDeck, ih]

lemma jsFindById_objs (ds : List Deck) (t : String) :
    ∃ r, jsFindById (ds.map encodeDeck) t = Except.ok r := by
  induction ds with
  | nil => exact ⟨none, rfl⟩
  | cons d rest ih =>
    rw [List.map_cons]
    have key : jsFindById (encodeDeck d :: rest.map encodeDeck) t =
        if d.id = t then Except.ok (some (encodeDeck d))
        else jsFindById (rest.map encodeDeck) t := rfl
    rw [key]
    by_cases h : d.id = t
    · rw [if_pos h]
      exact ⟨some (encodeDeck d), rfl⟩
    · rw [if_neg h]
      exact ih

/-- Claim C8: writing a non-empty deck list with saveData and then running
loadData installs exactly the serialized deck list, and decoding it
recovers the original decks, so the loaded list is structurally equal to
the saved one. -/
theorem c8_save_load_roundtrip (ds : List Deck) (h : ds ≠ []) (rst : RawState) :
    (loadData { rst with storage := saveData ds }).decks = ds.map encodeDeck ∧
    decodeDecks (ds.map encodeDeck) = some ds := by
  obtain ⟨r, hr⟩ := jsFindById_objs ds rst.currentDeck
  have hacc := loadData_accepted { rst with storage := saveData ds }
    (ds.map encodeDeck) r rfl (by simpa using h) hr
  exact ⟨hacc.1, decodeDecks_encodeDeck ds⟩

/-- Witness for c8_save_load_roundtrip at a concrete deck list. -/
theorem c8_save_load_roundtrip_witness :
    (loadData { (⟨[], [], "default", Stored.absent⟩ : RawState) with
      storage := saveData [⟨"d1", "Deck", [⟨1, "q", "a", "t"⟩]⟩] }).decks
      = [⟨"d1", "Deck", [⟨1, "q", "a", "t"⟩]⟩].map encodeDeck ∧
    decodeDecks ([(⟨"d1", "Deck", [⟨1, "q", "a", "t"⟩]⟩ : Deck)].map encodeDeck)
      = some [⟨"d1", "Deck", [⟨1, "q", "a", "t"⟩]⟩] :=
  c8_save_load_roundtrip [⟨"d1", "Deck", [⟨1, "q", "a", "t"⟩]⟩] (by decide)
    ⟨[], [], "default", Stored.absent⟩

end FlashcardApp

